import Mathlib

/-!
A shallow embedding of `scripts/core/rollback_manager.py`, the snapshot /
rollback engine of the ai-context toolkit, together with proofs of the
spec's testable properties.

Modelling conventions:
* The filesystem of the project working tree is an association list from
  repository-relative paths to file contents; paths are unique in any
  real directory tree, and reads take the first binding.
* Git is modelled by the committed tree (`head`), a stack of stash
  entries (message, saved working tree), and a `gitRepo` flag; `git
  stash push -u` shelves the whole uncommitted state (tracked
  modifications and untracked files) and resets the working tree to
  `head`, `git stash pop` restores the saved tree, `git checkout HEAD --
  <f>` restores one file from `head`, and a full `git checkout -- .`
  followed by `git clean -fd` resets the working tree to `head`.
* The snapshot store (`.ai-context/snapshots/`) is an association list
  from directory name to the directory's contents: `metadata.json`
  (where `none` stands for a missing or unparseable file),
  `files.tar.gz` (archive members as (arcname, contents) pairs) and
  `stash_ref.txt`.
* Timestamps are explicit `DateTime` records carried in the state as a
  clock; `strftime("%Y%m%d_%H%M%S")` and `isoformat()` are translated as
  fixed-width zero-padded rendering of the fields.
* Subprocess and filesystem calls cannot raise in the model: the Python
  code runs every git command with `check=False` and wraps metadata
  reads in try/except, so failures are data (`none`, `returncode`
  branches), matching the source's control flow.
-/

namespace RollbackSpec

/-- Contents of a directory tree: repository-relative path ↦ file contents. -/
abbrev FileMap := List (String × String)

/-- Generic association-list lookup (filesystem read / `dict` access).
First binding wins, mirroring unique paths in a real tree. -/
def assocFind {β : Type} : List (String × β) → String → Option β
  | [], _ => none
  | (q, w) :: rest, p => if q = p then some w else assocFind rest p

/-- Filesystem write (`Path.write_text`, `tar.extract` target): overwrite
the existing entry at the path or create a new one. -/
def FileMap.set : FileMap → String → String → FileMap
  | [], p, v => [(p, v)]
  | (q, w) :: rest, p, v =>
      if q = p then (p, v) :: rest else (q, w) :: FileMap.set rest p v

/-- Read accessor used throughout: `FileMap.get m p` is the contents of
path `p`, `none` when the file does not exist. -/
def FileMap.get (m : FileMap) (p : String) : Option String := assocFind m p

/-- `class SnapshotMode(Enum)`. -/
inductive SnapshotMode
  | GIT_STASH
  | FILE_BACKUP
  | HYBRID
deriving DecidableEq

/-- The `.value` of each enum member. -/
def SnapshotMode.value : SnapshotMode → String
  | .GIT_STASH => "git_stash"
  | .FILE_BACKUP => "file_backup"
  | .HYBRID => "hybrid"

/-- `@dataclass class Snapshot`. -/
structure Snapshot where
  id : String
  created_at : String
  task_id : String
  task_description : String
  agent : String
  mode : String
  files_modified : List String
  git_ref : Option String
  backup_path : Option String
deriving DecidableEq

/-- One directory `.ai-context/snapshots/<id>/`: its `metadata.json`
(`none` = absent or unparseable), its `files.tar.gz` (list of archive
members with contents) and its `stash_ref.txt`. -/
structure StoreEntry where
  metadata : Option Snapshot := none
  backupFile : Option (List (String × String)) := none
  stashRefFile : Option String := none
deriving DecidableEq

/-- A snapshot directory holding no files yet. -/
def StoreEntry.empty : StoreEntry :=
  { metadata := none, backupFile := none, stashRefFile := none }

/-- One element of the `rollback_history.json` array; `details` values
are rendered to strings in the model. -/
structure HistoryEntry where
  timestamp : String
  action : String
  snapshot_id : String
  details : List (String × String)
deriving DecidableEq

/-- A UTC wall-clock instant at second resolution. -/
structure DateTime where
  year : Nat
  month : Nat
  day : Nat
  hour : Nat
  minute : Nat
  second : Nat
deriving DecidableEq

/-- Two zero-padded decimal digits, as printed by `strftime` field
specifiers such as `%m`, `%d`, `%H`, `%M`, `%S`. -/
def digits2 (n : Nat) : List Char :=
  [Nat.digitChar (n / 10 % 10), Nat.digitChar (n % 10)]

/-- Four zero-padded decimal digits, as printed by `%Y` for years below
10000. -/
def digits4 (n : Nat) : List Char :=
  [Nat.digitChar (n / 1000 % 10), Nat.digitChar (n / 100 % 10),
   Nat.digitChar (n / 10 % 10), Nat.digitChar (n % 10)]

/-- `datetime.strftime("%Y%m%d_%H%M%S")`. -/
def strftime_compact (t : DateTime) : String :=
  String.mk (digits4 t.year) ++ String.mk (digits2 t.month) ++
  String.mk (digits2 t.day) ++ "_" ++ String.mk (digits2 t.hour) ++
  String.mk (digits2 t.minute) ++ String.mk (digits2 t.second)

/-- `datetime.isoformat()` of an aware UTC datetime. -/
def isoformat (t : DateTime) : String :=
  String.mk (digits4 t.year) ++ "-" ++ String.mk (digits2 t.month) ++ "-" ++
  String.mk (digits2 t.day) ++ "T" ++ String.mk (digits2 t.hour) ++ ":" ++
  String.mk (digits2 t.minute) ++ ":" ++ String.mk (digits2 t.second) ++ "+00:00"

/-- The whole world a `RollbackManager` instance acts on: the project
working tree, the git repository state, the snapshot store, the history
log and the current clock. -/
structure PState where
  files : FileMap
  gitRepo : Bool
  head : FileMap
  stashes : List (String × FileMap)
  store : List (String × StoreEntry)
  history : List HistoryEntry
  clock : DateTime
deriving DecidableEq

/-- Does `pat` occur at the head of `l`?  (Exact character match.) -/
def chStarts : List Char → List Char → Bool
  | [], _ => true
  | _ :: _, [] => false
  | a :: as, b :: bs => decide (a = b) && chStarts as bs

/-- Does `pat` occur anywhere in `l`?  (Python's `pat in line`.) -/
def chHasSub (pat : List Char) : List Char → Bool
  | [] => chStarts pat []
  | c :: rest => chStarts pat (c :: rest) || chHasSub pat rest

/-- Python's substring test `pat in s`. -/
def strContains (s pat : String) : Bool := chHasSub pat.data s.data

/-- Python's `s.split(":")[0]`: the characters before the first colon
(the whole string when there is none). -/
def firstField (s : String) : String :=
  String.mk (s.data.takeWhile (fun c => decide (c ≠ ':')))

/-- `RollbackManager._is_git_repo`. -/
def is_git_repo (st : PState) : Bool := st.gitRepo

/-- `RollbackManager._get_untracked_files` (`git ls-files --others
--exclude-standard`): working-tree paths with no committed counterpart;
empty outside a repository. -/
def untracked_files (st : PState) : List String :=
  if st.gitRepo then
    (st.files.map (fun e => e.1)).filter (fun p => (assocFind st.head p).isNone)
  else []

/-- `RollbackManager._get_modified_files` (`git status --porcelain`):
tracked paths whose working contents differ from `head` (including
deletions), followed by the untracked paths; empty outside a
repository. -/
def get_modified_files (st : PState) : List String :=
  if st.gitRepo then
    ((st.head.map (fun e => e.1)).filter
      (fun p => decide (assocFind st.files p ≠ assocFind st.head p))) ++
    untracked_files st
  else []

/-- `git stash push -u -m message`: when there is nothing to stash (the
working tree equals `head`) nothing happens; otherwise the whole
uncommitted state is shelved and the working tree resets to `head`. -/
def git_stash_push (st : PState) (message : String) : PState :=
  if st.files = st.head then st
  else { st with stashes := (message, st.files) :: st.stashes, files := st.head }

/-- `git stash pop`: reapply and drop the newest stash entry.  (The only
use in the source pops immediately after a push, where reapplying the
shelved diff onto `head` restores exactly the saved tree.) -/
def git_stash_pop (st : PState) : PState :=
  match st.stashes with
  | [] => st
  | (_, w) :: rest => { st with files := w, stashes := rest }

/-- `git checkout HEAD -- f`: restore one file from the committed tree;
a file unknown to `head` makes the command fail, which the source
ignores (`check=False`). -/
def git_checkout_head (st : PState) (f : String) : PState :=
  match assocFind st.head f with
  | some c => { st with files := FileMap.set st.files f c }
  | none => st

/-- `RollbackManager._generate_snapshot_id`. -/
def generate_snapshot_id (t : DateTime) : String :=
  "snap_" ++ strftime_compact t

/-- `RollbackManager._determine_mode`. -/
def determine_mode (st : PState) : SnapshotMode :=
  if st.gitRepo = false then SnapshotMode.FILE_BACKUP
  else if untracked_files st ≠ [] then SnapshotMode.HYBRID
  else SnapshotMode.GIT_STASH

/-- `snapshot_dir.mkdir(parents=True, exist_ok=True)`: an existing
directory (same-second id collision) is kept as is. -/
def store_ensure_dir (store : List (String × StoreEntry)) (snapshot_id : String) :
    List (String × StoreEntry) :=
  if (assocFind store snapshot_id).isSome then store
  else store ++ [(snapshot_id, StoreEntry.empty)]

/-- Rewrite one file inside an existing snapshot directory (directories
with other names are untouched). -/
def store_update : List (String × StoreEntry) → String → (StoreEntry → StoreEntry) →
    List (String × StoreEntry)
  | [], _, _ => []
  | (q, e) :: rest, snapshot_id, f =>
      if q = snapshot_id then (q, f e) :: store_update rest snapshot_id f
      else (q, e) :: store_update rest snapshot_id f

/-- Write `metadata.json`. -/
def store_set_meta (store : List (String × StoreEntry)) (snapshot_id : String)
    (snap : Snapshot) : List (String × StoreEntry) :=
  store_update store snapshot_id (fun e => { e with metadata := some snap })

/-- Write `files.tar.gz`. -/
def store_set_backup (store : List (String × StoreEntry)) (snapshot_id : String)
    (members : List (String × String)) : List (String × StoreEntry) :=
  store_update store snapshot_id (fun e => { e with backupFile := some members })

/-- Write `stash_ref.txt`. -/
def store_set_ref (store : List (String × StoreEntry)) (snapshot_id : String)
    (ref : String) : List (String × StoreEntry) :=
  store_update store snapshot_id (fun e => { e with stashRefFile := some ref })

/-- `shutil.rmtree(snapshot_dir)`: drop the directory with that name. -/
def store_remove : List (String × StoreEntry) → String → List (String × StoreEntry)
  | [], _ => []
  | (q, e) :: rest, snapshot_id =>
      if q = snapshot_id then store_remove rest snapshot_id
      else (q, e) :: store_remove rest snapshot_id

/-- `RollbackManager._add_to_history`. -/
def add_to_history (st : PState) (action snapshot_id : String)
    (details : List (String × String)) : PState :=
  { st with history := st.history ++
      [{ timestamp := isoformat st.clock, action := action,
         snapshot_id := snapshot_id, details := details }] }

/-- `RollbackManager._create_git_stash`.  Outside a repository every git
command fails and the function returns `None`.  Otherwise: push a stash
tagged `ai-context: <message>`; list stashes; if the first line (format
`stash@\x7b0\x7d: On <branch>: <message>`, branch modelled as `main`)
mentions `ai-context:`, record the text before the first colon as the
reference, write it to `stash_ref.txt`, pop the stash back, and return
the reference; in every other case return `None`. -/
def create_git_stash (st : PState) (snapshot_id message : String) :
    Option String × PState :=
  if st.gitRepo = false then (none, st) else
  let st1 := git_stash_push st ("ai-context: " ++ message)
  match st1.stashes with
  | [] => (none, st1)
  | (m, _) :: _ =>
    let first_line := "stash@{0}: On main: " ++ m
    if strContains first_line "ai-context:" then
      let stash_ref := firstField first_line
      let st2 := { st1 with store := store_set_ref st1.store snapshot_id stash_ref }
      (some stash_ref, git_stash_pop st2)
    else (none, st1)

/-- `RollbackManager._create_file_backup`: archive members for the given
paths, in order, silently skipping files that do not exist. -/
def create_file_backup (st : PState) (files : List String) : List (String × String) :=
  files.filterMap (fun p => (assocFind st.files p).map (fun c => (p, c)))

/-- `RollbackManager.create_snapshot`. -/
def create_snapshot (st : PState) (task_id task_description agent : String)
    (files : Option (List String)) : Snapshot × PState :=
  let snapshot_id := generate_snapshot_id st.clock
  let st0 : PState := { st with store := store_ensure_dir st.store snapshot_id }
  let mode0 := determine_mode st0
  let modified_files :=
    match files with
    | none => get_modified_files st0
    | some fs => if fs.isEmpty then get_modified_files st0 else fs
  let stashRes :=
    if mode0 = SnapshotMode.GIT_STASH then
      create_git_stash st0 snapshot_id (task_id ++ ": " ++ task_description)
    else (none, st0)
  let mode1 :=
    if mode0 = SnapshotMode.GIT_STASH ∧ stashRes.1 = none then
      SnapshotMode.FILE_BACKUP
    else mode0
  let backupRes :=
    if mode1 = SnapshotMode.FILE_BACKUP ∨ mode1 = SnapshotMode.HYBRID then
      let all_files := modified_files ++ untracked_files stashRes.2
      if all_files.isEmpty then ((none : Option String), stashRes.2)
      else
        let newStore :=
          store_set_backup stashRes.2.store snapshot_id
            (create_file_backup stashRes.2 all_files)
        (some (snapshot_id ++ "/files.tar.gz"), { stashRes.2 with store := newStore })
    else ((none : Option String), stashRes.2)
  let snap : Snapshot :=
    { id := snapshot_id
      created_at := isoformat st.clock
      task_id := task_id
      task_description := task_description
      agent := agent
      mode := mode1.value
      files_modified := modified_files
      git_ref := stashRes.1
      backup_path := backupRes.1 }
  let st3 := { backupRes.2 with store := store_set_meta backupRes.2.store snapshot_id snap }
  let st4 := add_to_history st3 "create" snapshot_id
    [("task_id", task_id), ("mode", mode1.value),
     ("files_count", toString modified_files.length)]
  (snap, st4)

/-- `RollbackManager.get_snapshot`: `None` when the directory or its
`metadata.json` is missing or unparseable. -/
def get_snapshot (st : PState) (snapshot_id : String) : Option Snapshot :=
  match assocFind st.store snapshot_id with
  | none => none
  | some e => e.metadata

/-- The comparison `sort(key=lambda s: s.created_at, reverse=True)`
sorts by: `a` may come before `b` when `b.created_at ≤ a.created_at`. -/
def snapshotLe (a b : Snapshot) : Bool := decide (b.created_at ≤ a.created_at)

/-- `RollbackManager.list_snapshots`: every directory whose metadata
parses, newest first. -/
def list_snapshots (st : PState) : List Snapshot :=
  (st.store.filterMap (fun e => e.2.metadata)).mergeSort snapshotLe

/-- `RollbackManager.rollback`. -/
def rollback (st : PState) (snapshot_id : String) (files : Option (List String)) :
    Bool × PState :=
  match get_snapshot st snapshot_id with
  | none => (false, st)
  | some snap =>
    let entry := (assocFind st.store snapshot_id).getD StoreEntry.empty
    let res :=
      if snap.mode = SnapshotMode.GIT_STASH.value ∧ snap.git_ref.isSome then
        match files with
        | some fs =>
          if fs.isEmpty then (true, { st with files := st.head })
          else (true, fs.foldl git_checkout_head st)
        | none => (true, { st with files := st.head })
      else if snap.backup_path.isSome ∨ entry.backupFile.isSome then
        match entry.backupFile with
        | some members =>
          let sel := match files with
            | some fs =>
              if fs.isEmpty then members
              else members.filter (fun mem => decide (mem.1 ∈ fs))
            | none => members
          let newFiles := sel.foldl (fun m pc => FileMap.set m pc.1 pc.2) st.files
          (true, { st with files := newFiles })
        | none => (false, st)
      else (false, st)
    if res.1 then
      (true, add_to_history res.2 "rollback" snapshot_id
        [("files", match files with
                   | none => "None"
                   | some fs => String.intercalate "," fs),
         ("full_rollback", if files = none then "True" else "False")])
    else (false, st)

/-- `RollbackManager.delete_snapshot`. -/
def delete_snapshot (st : PState) (snapshot_id : String) : Bool × PState :=
  if (assocFind st.store snapshot_id).isSome then
    (true, add_to_history { st with store := store_remove st.store snapshot_id }
      "delete" snapshot_id [])
  else (false, st)

/-- `RollbackManager.cleanup_old_snapshots`. -/
def cleanup_old_snapshots (st : PState) (keep_count : Nat) : Nat × PState :=
  let snapshots := list_snapshots st
  if snapshots.length ≤ keep_count then (0, st)
  else
    (snapshots.drop keep_count).foldl
      (fun acc snap =>
        let r := delete_snapshot acc.2 snap.id
        (if r.1 then acc.1 + 1 else acc.1, r.2))
      (0, st)

/-- A store state as the manager itself produces it: snapshot directory
names are unique (as in any real directory) and each `metadata.json`
records the id of the directory it sits in. -/
def StoreWF (st : PState) : Prop :=
  (st.store.map (fun e => e.1)).Nodup ∧
  ∀ e ∈ st.store, ∀ m, e.2.metadata = some m → m.id = e.1

/-- Field bounds under which the zero-padded `strftime` rendering is
faithful (every real UTC datetime satisfies them). -/
def DateTime.Valid (t : DateTime) : Prop :=
  t.year < 10000 ∧ t.month < 100 ∧ t.day < 100 ∧
  t.hour < 100 ∧ t.minute < 100 ∧ t.second < 100

/-- Noon of 2025-01-01, the clock used by the concrete scenarios. -/
def demoClock : DateTime := ⟨2025, 1, 1, 12, 0, 0⟩

/-- Scenario A's project: no version control, `a.txt` contains `"v1"`. -/
def demoNoGit : PState :=
  { files := [("a.txt", "v1")], gitRepo := false, head := [], stashes := [],
    store := [], history := [], clock := demoClock }

/-- A project under version control whose last commit holds `a.txt` =
`"v0"` while the working tree holds the uncommitted `"v1"`. -/
def demoGit : PState :=
  { files := [("a.txt", "v1")], gitRepo := true, head := [("a.txt", "v0")],
    stashes := [], store := [], history := [], clock := demoClock }

/-- Metadata of the `i`-th demo snapshot (larger `i` = newer). -/
def demoSnapMeta (i : Nat) : Snapshot :=
  { id := "snap_" ++ toString i, created_at := toString i, task_id := "t",
    task_description := "d", agent := "a", mode := "file_backup",
    files_modified := [], git_ref := none, backup_path := none }

/-- A snapshot directory holding only the `i`-th demo metadata. -/
def demoEntry (i : Nat) : StoreEntry :=
  { StoreEntry.empty with metadata := some (demoSnapMeta i) }

/-- A store holding five snapshots, `snap_4` the newest. -/
def demoStore5 : PState :=
  { files := [], gitRepo := false, head := [], stashes := [],
    store := [("snap_0", demoEntry 0), ("snap_1", demoEntry 1), ("snap_2", demoEntry 2),
              ("snap_3", demoEntry 3), ("snap_4", demoEntry 4)],
    history := [], clock := demoClock }

/-- A project with an empty snapshot store. -/
def demoEmptyStore : PState :=
  { files := [("a.txt", "v1")], gitRepo := false, head := [], stashes := [],
    store := [], history := [], clock := demoClock }

/-- A two-file project without version control, used for the selective
restore scenario. -/
def demoTwoFiles : PState :=
  { files := [("a.txt", "a1"), ("b.txt", "b1")], gitRepo := false, head := [],
    stashes := [], store := [], history := [], clock := demoClock }

/-! ### Association-list and store lemmas -/

theorem assocFind_set_self (m : FileMap) (p v : String) :
    assocFind (FileMap.set m p v) p = some v := by
  induction m with
  | nil => simp [FileMap.set, assocFind]
  | cons e rest ih =>
    obtain ⟨a, b⟩ := e
    by_cases h : a = p
    · simp [FileMap.set, h, assocFind]
    · simp [FileMap.set, h, assocFind, ih]

theorem assocFind_set_ne (m : FileMap) {p q : String} (v : String) (h : q ≠ p) :
    assocFind (FileMap.set m p v) q = assocFind m q := by
  have h' : ¬ p = q := fun hh => h hh.symm
  induction m with
  | nil => simp [FileMap.set, assocFind, h']
  | cons e rest ih =>
    obtain ⟨a, b⟩ := e
    by_cases he : a = p
    · subst he
      simp [FileMap.set, assocFind, h']
    · by_cases hq : a = q
      · subst hq
        simp [FileMap.set, he, assocFind]
      · simp [FileMap.set, he, assocFind, hq, ih]

theorem assocFind_append {β : Type} (l1 l2 : List (String × β)) (p : String)
    (h : assocFind l1 p = none) : assocFind (l1 ++ l2) p = assocFind l2 p := by
  induction l1 with
  | nil => simp
  | cons e rest ih =>
    obtain ⟨a, b⟩ := e
    by_cases he : a = p
    · simp [assocFind, he] at h
    · simp only [assocFind, he, if_false, List.cons_append] at h ⊢
      exact ih h

theorem assocFind_isSome_of_mem {β : Type} (l : List (String × β)) (p : String)
    (h : p ∈ l.map (fun e => e.1)) : (assocFind l p).isSome = true := by
  induction l with
  | nil => simp at h
  | cons e rest ih =>
    obtain ⟨a, b⟩ := e
    by_cases he : a = p
    · simp [assocFind, he]
    · simp only [List.map_cons, List.mem_cons] at h
      rcases h with h | h
      · exact absurd h.symm he
      · simp [assocFind, he, ih h]

theorem assocFind_store_update (s : List (String × StoreEntry)) (id : String)
    (f : StoreEntry → StoreEntry) :
    assocFind (store_update s id f) id = (assocFind s id).map f := by
  induction s with
  | nil => simp [store_update, assocFind]
  | cons e rest ih =>
    obtain ⟨a, b⟩ := e
    by_cases he : a = id
    · subst he
      simp [store_update, assocFind]
    · simp [store_update, he, assocFind, ih]

theorem assocFind_store_update_ne (s : List (String × StoreEntry)) (id : String)
    (f : StoreEntry → StoreEntry) (q : String) (h : q ≠ id) :
    assocFind (store_update s id f) q = assocFind s q := by
  have h' : ¬ id = q := fun hh => h hh.symm
  induction s with
  | nil => simp [store_update, assocFind]
  | cons e rest ih =>
    obtain ⟨a, b⟩ := e
    by_cases he : a = id
    · subst he
      simp [store_update, assocFind, h', ih]
    · by_cases hq : a = q
      · subst hq
        simp [store_update, he, assocFind]
      · simp [store_update, he, assocFind, hq, ih]

theorem assocFind_store_remove_ne (s : List (String × StoreEntry)) (id q : String)
    (h : q ≠ id) : assocFind (store_remove s id) q = assocFind s q := by
  have h' : ¬ id = q := fun hh => h hh.symm
  induction s with
  | nil => simp [store_remove, assocFind]
  | cons e rest ih =>
    obtain ⟨a, b⟩ := e
    by_cases he : a = id
    · subst he
      simp [store_remove, assocFind, h', ih]
    · by_cases hq : a = q
      · subst hq
        simp [store_remove, he, assocFind]
      · simp [store_remove, he, assocFind, hq, ih]

/-- Extracting archive members never touches a path that is not among
the member names. -/
theorem foldl_extract_not_mem (ms : List (String × String)) (m : FileMap) (p : String)
    (h : p ∉ ms.map (fun e => e.1)) :
    assocFind (ms.foldl (fun acc pc => FileMap.set acc pc.1 pc.2) m) p = assocFind m p := by
  induction ms generalizing m with
  | nil => rfl
  | cons pc rest ih =>
    simp only [List.map_cons, List.mem_cons, not_or] at h
    simp only [List.foldl_cons]
    rw [ih _ h.2, assocFind_set_ne _ _ h.1]

/-- Extracting archive members writes the recorded contents: if every
member named `p` carries contents `c` and either such a member occurs or
the accumulator already maps `p` to `c`, the result maps `p` to `c`. -/
theorem foldl_extract_mem (ms : List (String × String)) (m : FileMap) (p c : String)
    (hall : ∀ pc ∈ ms, pc.1 = p → pc.2 = c)
    (hsrc : (p, c) ∈ ms ∨ assocFind m p = some c) :
    assocFind (ms.foldl (fun acc pc => FileMap.set acc pc.1 pc.2) m) p = some c := by
  induction ms generalizing m with
  | nil =>
    rcases hsrc with h | h
    · simp at h
    · simpa using h
  | cons pc rest ih =>
    simp only [List.foldl_cons]
    apply ih
    · intro q hq hq1
      exact hall q (List.mem_cons_of_mem _ hq) hq1
    · rcases hsrc with h | h
      · rcases List.mem_cons.mp h with h | h
        · right
          rw [← h]
          exact assocFind_set_self _ _ _
        · left; exact h
      · by_cases hp : pc.1 = p
        · right
          rw [hall pc (List.mem_cons_self _ _) hp, hp]
          exact assocFind_set_self _ _ _
        · right
          rw [assocFind_set_ne _ _ (fun hh => hp hh.symm)]
          exact h

/-! ### Substring and stash-line lemmas -/

theorem chStarts_append_self (pat rest : List Char) :
    chStarts pat (pat ++ rest) = true := by
  induction pat with
  | nil => rfl
  | cons c cs ih => simp [chStarts, ih]

theorem chHasSub_of_chStarts (pat l : List Char) (h : chStarts pat l = true) :
    chHasSub pat l = true := by
  cases l with
  | nil => simpa [chHasSub] using h
  | cons c rest => simp [chHasSub, h]

theorem chHasSub_cons (pat : List Char) (c : Char) (rest : List Char)
    (h : chHasSub pat rest = true) : chHasSub pat (c :: rest) = true := by
  simp [chHasSub, h]

theorem chHasSub_append (pat pre post : List Char) :
    chHasSub pat (pre ++ (pat ++ post)) = true := by
  induction pre with
  | nil => exact chHasSub_of_chStarts _ _ (chStarts_append_self pat post)
  | cons c cs ih => exact chHasSub_cons _ _ _ ih

/-- The first line of `git stash list` right after pushing an
`ai-context` stash passes the source's `"ai-context:" in first_line`
test, whatever the caller-supplied message is. -/
theorem stash_line_contains (message : String) :
    strContains ("stash@{0}: On main: " ++ ("ai-context: " ++ message))
      "ai-context:" = true := by
  have hsplit : ("stash@{0}: On main: " ++ ("ai-context: " ++ message)).data =
      "stash@{0}: On main: ".data ++ ("ai-context:".data ++ (" " ++ message).data) := by
    simp only [String.data_append]
    have : ("ai-context: ").data = "ai-context:".data ++ " ".data := by decide
    simp [this, String.data_append]
  unfold strContains
  rw [hsplit, String.data_append]
  exact chHasSub_append _ _ _

theorem takeWhile_append_stop (p : Char → Bool) (l1 l2 : List Char)
    (h : l1.any (fun c => !(p c)) = true) :
    (l1 ++ l2).takeWhile p = l1.takeWhile p := by
  induction l1 with
  | nil => simp at h
  | cons c cs ih =>
    by_cases hc : p c = true
    · simp only [List.any_cons, hc, Bool.not_true, Bool.false_or] at h
      simp [List.takeWhile_cons, hc, ih h]
    · have hc' : p c = false := by
        cases hpc : p c
        · rfl
        · exact absurd hpc hc
      simp [List.takeWhile_cons, hc']

/-- The reference the source records for a fresh `ai-context` stash is
the text before the first colon of the first `git stash list` line:
always `stash@\x7b0\x7d`. -/
theorem firstField_stash_line (m : String) :
    firstField ("stash@{0}: On main: " ++ m) = "stash@{0}" := by
  unfold firstField
  rw [String.data_append, takeWhile_append_stop _ _ _ (by decide)]
  decide

/-- `_create_git_stash` on a repository with uncommitted changes:
pushes, records `stash@\x7b0\x7d`, pops, and leaves the working tree,
the stash stack and everything else unchanged except for the written
`stash_ref.txt`. -/
theorem create_git_stash_changes (st : PState) (sid msg : String)
    (h1 : st.gitRepo = true) (h2 : st.files ≠ st.head) :
    create_git_stash st sid msg =
      (some "stash@{0}",
       { st with store := store_set_ref st.store sid "stash@{0}" }) := by
  unfold create_git_stash
  rw [h1]
  simp only [Bool.true_eq_false, if_false]
  rw [git_stash_push, if_neg h2]
  simp only [stash_line_contains, if_pos, firstField_stash_line]
  simp [git_stash_pop, h1]

/-- `_create_git_stash` only returns `None` without having touched the
state (the push was a no-op and no pop happened). -/
theorem create_git_stash_none_state (st : PState) (sid msg : String)
    (h : (create_git_stash st sid msg).1 = none) :
    (create_git_stash st sid msg).2 = st := by
  unfold create_git_stash at h ⊢
  by_cases hg : st.gitRepo = false
  · simp [hg]
  · simp only [hg, if_false]
    simp only [hg, if_false] at h
    by_cases hp : st.files = st.head
    · rw [git_stash_push, if_pos hp] at h ⊢
      cases hs : st.stashes with
      | nil => simp [hs]
      | cons e rest =>
        obtain ⟨m, w⟩ := e
        simp only [hs] at h ⊢
        by_cases hc : strContains ("stash@{0}: On main: " ++ m) "ai-context:" = true
        · simp [hc] at h
        · have hc' : strContains ("stash@{0}: On main: " ++ m) "ai-context:" = false := by
            cases hcc : strContains ("stash@{0}: On main: " ++ m) "ai-context:"
            · rfl
            · exact absurd hcc hc
          simp [hc']
    · rw [git_stash_push, if_neg hp] at h
      simp [stash_line_contains] at h

/-! ### `create_snapshot` characterizations -/

theorem untracked_files_congr (st' st : PState) (hf : st'.files = st.files)
    (hh : st'.head = st.head) (hg : st'.gitRepo = st.gitRepo) :
    untracked_files st' = untracked_files st := by
  unfold untracked_files
  rw [hf, hh, hg]

theorem create_snapshot_no_git_some (st : PState) (tid d ag : String) (F : List String)
    (hgit : st.gitRepo = false) (hne : F ≠ []) :
    create_snapshot st tid d ag (some F) =
      (let sid := generate_snapshot_id st.clock
       let snap : Snapshot :=
         { id := sid, created_at := isoformat st.clock, task_id := tid,
           task_description := d, agent := ag, mode := "file_backup",
           files_modified := F, git_ref := none,
           backup_path := some (sid ++ "/files.tar.gz") }
       (snap,
        { st with
          store := store_set_meta
            (store_set_backup (store_ensure_dir st.store sid) sid
              (create_file_backup st F)) sid snap,
          history := st.history ++
            [{ timestamp := isoformat st.clock, action := "create", snapshot_id := sid,
               details := [("task_id", tid), ("mode", "file_backup"),
                 ("files_count", toString F.length)] }] })) := by
  have hF : F.isEmpty = false := by
    cases F
    · exact absurd rfl hne
    · rfl
  unfold create_snapshot
  simp [determine_mode, hgit, untracked_files, get_modified_files, hF,
    add_to_history, SnapshotMode.value, create_file_backup, hne]

theorem create_snapshot_no_git_none (st : PState) (tid d ag : String)
    (hgit : st.gitRepo = false) :
    create_snapshot st tid d ag none =
      (let sid := generate_snapshot_id st.clock
       let snap : Snapshot :=
         { id := sid, created_at := isoformat st.clock, task_id := tid,
           task_description := d, agent := ag, mode := "file_backup",
           files_modified := [], git_ref := none, backup_path := none }
       (snap,
        { st with
          store := store_set_meta (store_ensure_dir st.store sid) sid snap,
          history := st.history ++
            [{ timestamp := isoformat st.clock, action := "create", snapshot_id := sid,
               details := [("task_id", tid), ("mode", "file_backup"),
                 ("files_count", toString (0 : Nat))] }] })) := by
  unfold create_snapshot
  simp [determine_mode, hgit, untracked_files, get_modified_files,
    add_to_history, SnapshotMode.value]

theorem create_git_stash_noop_nil (st : PState) (sid msg : String)
    (h1 : st.gitRepo = true) (hf : st.files = st.head) (hs : st.stashes = []) :
    create_git_stash st sid msg = (none, st) := by
  unfold create_git_stash
  rw [h1]
  simp only [Bool.true_eq_false, if_false]
  rw [git_stash_push, if_pos hf]
  simp [hs]

theorem create_git_stash_stale_tag (st : PState) (sid msg m : String) (w : FileMap)
    (rest : List (String × FileMap)) (h1 : st.gitRepo = true) (hf : st.files = st.head)
    (hs : st.stashes = (m, w) :: rest)
    (hc : strContains ("stash@{0}: On main: " ++ m) "ai-context:" = true) :
    create_git_stash st sid msg =
      (some (firstField ("stash@{0}: On main: " ++ m)),
       { st with
          files := w
          stashes := rest
          store := store_set_ref st.store sid (firstField ("stash@{0}: On main: " ++ m)) }) := by
  unfold create_git_stash
  rw [h1]
  simp only [Bool.true_eq_false, if_false]
  rw [git_stash_push, if_pos hf]
  simp [hs, hc, git_stash_pop, h1]

theorem create_git_stash_stale_notag (st : PState) (sid msg m : String) (w : FileMap)
    (rest : List (String × FileMap)) (h1 : st.gitRepo = true) (hf : st.files = st.head)
    (hs : st.stashes = (m, w) :: rest)
    (hc : strContains ("stash@{0}: On main: " ++ m) "ai-context:" = false) :
    create_git_stash st sid msg = (none, st) := by
  unfold create_git_stash
  rw [h1]
  simp only [Bool.true_eq_false, if_false]
  rw [git_stash_push, if_pos hf]
  simp [hs, hc]

/-- A repository with untracked files necessarily has a working tree
that differs from its committed tree. -/
theorem files_ne_head_of_untracked (st : PState) (h : untracked_files st ≠ []) :
    st.files ≠ st.head := by
  intro hfh
  unfold untracked_files at h
  split at h
  · rcases List.exists_mem_of_ne_nil _ h with ⟨p, hp⟩
    have hp' := List.mem_filter.mp hp
    obtain ⟨hmem, hnone⟩ := hp'
    have hsome := assocFind_isSome_of_mem st.files p hmem
    rw [hfh] at hsome
    rw [Option.isNone_iff_eq_none.mp hnone] at hsome
    simp at hsome
  · exact h rfl

theorem ite_pair_isSome {α : Type} (c : Prop) [Decidable c] (p : String) (x y : α) :
    ((if c then ((none : Option String), x) else (some p, y)).1.isSome = true) ↔ ¬ c := by
  split <;> simp_all

/-- Characterization of `create_snapshot` when the git-stash capture
succeeds: the snapshot stays in `git_stash` mode, records the returned
reference and produces no archive. -/
theorem create_snapshot_git_success_char (st : PState) (tid d ag : String)
    (files : Option (List String)) (ref : String) (st1 : PState)
    (hmode : determine_mode
      { st with store := store_ensure_dir st.store (generate_snapshot_id st.clock) } =
      SnapshotMode.GIT_STASH)
    (hstash : create_git_stash
      { st with store := store_ensure_dir st.store (generate_snapshot_id st.clock) }
      (generate_snapshot_id st.clock) (tid ++ ": " ++ d) = (some ref, st1)) :
    (create_snapshot st tid d ag files).1.mode = "git_stash" ∧
    (create_snapshot st tid d ag files).1.git_ref = some ref ∧
    (create_snapshot st tid d ag files).1.backup_path = none := by
  unfold create_snapshot
  simp only [hmode, hstash]
  simp [SnapshotMode.value]

/-- Characterization of `create_snapshot` when the final mode is
`file_backup`: either the project is not under version control, or the
stash capture failed leaving the state untouched. -/
theorem create_snapshot_backup_char (st : PState) (tid d ag : String)
    (files : Option (List String))
    (hcase : determine_mode
        { st with store := store_ensure_dir st.store (generate_snapshot_id st.clock) } =
        SnapshotMode.FILE_BACKUP ∨
      (determine_mode
        { st with store := store_ensure_dir st.store (generate_snapshot_id st.clock) } =
        SnapshotMode.GIT_STASH ∧
       create_git_stash
        { st with store := store_ensure_dir st.store (generate_snapshot_id st.clock) }
        (generate_snapshot_id st.clock) (tid ++ ": " ++ d) =
        (none,
         { st with store := store_ensure_dir st.store (generate_snapshot_id st.clock) })))
    (hu : untracked_files st = []) :
    (create_snapshot st tid d ag files).1.mode = "file_backup" ∧
    (create_snapshot st tid d ag files).1.git_ref = none ∧
    ((create_snapshot st tid d ag files).1.backup_path.isSome = true ↔
      (create_snapshot st tid d ag files).1.files_modified ≠ []) := by
  have hu' : untracked_files
      { st with store := store_ensure_dir st.store (generate_snapshot_id st.clock) } = [] :=
    (untracked_files_congr
      { st with store := store_ensure_dir st.store (generate_snapshot_id st.clock) }
      st rfl rfl rfl).trans hu
  unfold create_snapshot
  rcases hcase with hmode | ⟨hmode, hstash⟩
  · simp only [hmode]
    simp [SnapshotMode.value, hu', ite_pair_isSome]
  · simp only [hmode, hstash]
    simp [SnapshotMode.value, hu', ite_pair_isSome]

/-- Characterization of `create_snapshot` in hybrid mode: the code
never attempts a stash there, so no reference is recorded. -/
theorem create_snapshot_hybrid_char (st : PState) (tid d ag : String)
    (files : Option (List String))
    (hmode : determine_mode
      { st with store := store_ensure_dir st.store (generate_snapshot_id st.clock) } =
      SnapshotMode.HYBRID) :
    (create_snapshot st tid d ag files).1.mode = "hybrid" ∧
    (create_snapshot st tid d ag files).1.git_ref = none := by
  unfold create_snapshot
  simp only [hmode]
  simp [SnapshotMode.value]

/-! ### Claim theorems: snapshot creation (C2, C3, C4, C10) -/

/-- C2 (amended): every snapshot returned by `create_snapshot` falls in
one of three cases: in `git_stash` mode `git_ref` is present and
`backup_path` absent; in `file_backup` mode `git_ref` is absent and
`backup_path` is present exactly when the captured file list
(`files_modified`) is non-empty — not unconditionally, as the original
claim stated; in `hybrid` mode the record is unconstrained here. -/
theorem C2_snapshot_artifact_invariant (st : PState) (tid d ag : String)
    (files : Option (List String)) :
    ((create_snapshot st tid d ag files).1.mode = "git_stash" ∧
      (create_snapshot st tid d ag files).1.git_ref.isSome = true ∧
      (create_snapshot st tid d ag files).1.backup_path = none) ∨
    ((create_snapshot st tid d ag files).1.mode = "file_backup" ∧
      (create_snapshot st tid d ag files).1.git_ref = none ∧
      ((create_snapshot st tid d ag files).1.backup_path.isSome = true ↔
        (create_snapshot st tid d ag files).1.files_modified ≠ [])) ∨
    (create_snapshot st tid d ag files).1.mode = "hybrid" := by
  by_cases hg : st.gitRepo = true
  · by_cases hu : untracked_files st = []
    · have hu' : untracked_files
          { st with store := store_ensure_dir st.store (generate_snapshot_id st.clock) } = [] :=
        (untracked_files_congr
          { st with store := store_ensure_dir st.store (generate_snapshot_id st.clock) }
          st rfl rfl rfl).trans hu
      have hmode : determine_mode
          { st with store := store_ensure_dir st.store (generate_snapshot_id st.clock) } =
          SnapshotMode.GIT_STASH := by
        unfold determine_mode
        rw [hu']
        simp [hg]
      by_cases hf : st.files = st.head
      · cases hsl : st.stashes with
        | nil =>
          have hst := create_git_stash_noop_nil
            { st with store := store_ensure_dir st.store (generate_snapshot_id st.clock) }
            (generate_snapshot_id st.clock) (tid ++ ": " ++ d) hg hf hsl
          exact Or.inr (Or.inl
            (create_snapshot_backup_char st tid d ag files (Or.inr ⟨hmode, hst⟩) hu))
        | cons e rest =>
          obtain ⟨m, w⟩ := e
          cases hc : strContains ("stash@{0}: On main: " ++ m) "ai-context:" with
          | true =>
            have hst := create_git_stash_stale_tag
              { st with store := store_ensure_dir st.store (generate_snapshot_id st.clock) }
              (generate_snapshot_id st.clock) (tid ++ ": " ++ d) m w rest hg hf hsl hc
            have h3 := create_snapshot_git_success_char st tid d ag files _ _ hmode hst
            exact Or.inl ⟨h3.1, by rw [h3.2.1]; rfl, h3.2.2⟩
          | false =>
            have hst := create_git_stash_stale_notag
              { st with store := store_ensure_dir st.store (generate_snapshot_id st.clock) }
              (generate_snapshot_id st.clock) (tid ++ ": " ++ d) m w rest hg hf hsl hc
            exact Or.inr (Or.inl
              (create_snapshot_backup_char st tid d ag files (Or.inr ⟨hmode, hst⟩) hu))
      · have hst := create_git_stash_changes
          { st with store := store_ensure_dir st.store (generate_snapshot_id st.clock) }
          (generate_snapshot_id st.clock) (tid ++ ": " ++ d) hg hf
        have h3 := create_snapshot_git_success_char st tid d ag files _ _ hmode hst
        exact Or.inl ⟨h3.1, by rw [h3.2.1]; rfl, h3.2.2⟩
    · have hu0 : untracked_files
          { st with store := store_ensure_dir st.store (generate_snapshot_id st.clock) } ≠ [] := by
        rw [(untracked_files_congr
          { st with store := store_ensure_dir st.store (generate_snapshot_id st.clock) }
          st rfl rfl rfl)]
        exact hu
      have h1' : ¬ (({ st with store := store_ensure_dir st.store (generate_snapshot_id st.clock) } : PState).gitRepo = false) := by
        simp [hg]
      have hmode : determine_mode
          { st with store := store_ensure_dir st.store (generate_snapshot_id st.clock) } =
          SnapshotMode.HYBRID := by
        unfold determine_mode
        rw [if_neg h1', if_pos hu0]
      exact Or.inr (Or.inr (create_snapshot_hybrid_char st tid d ag files hmode).1)
  · have hg' : st.gitRepo = false := by
      cases hgb : st.gitRepo
      · rfl
      · exact absurd hgb hg
    have hmode : determine_mode
        { st with store := store_ensure_dir st.store (generate_snapshot_id st.clock) } =
        SnapshotMode.FILE_BACKUP := by
      unfold determine_mode
      simp [hg']
    have hu : untracked_files st = [] := by
      unfold untracked_files
      simp [hg']
    exact Or.inr (Or.inl
      (create_snapshot_backup_char st tid d ag files (Or.inl hmode) hu))

/-- C3: `create_snapshot` is total in the model (it always returns a
snapshot); without version control the snapshot's mode is
`file_backup`, and when the git-stash capture yields no reference the
mode falls back from `git_stash` to `file_backup`. -/
theorem C3_fallback_guarantee (st : PState) (tid d ag : String)
    (files : Option (List String)) :
    (st.gitRepo = false →
      (create_snapshot st tid d ag files).1.mode = "file_backup") ∧
    ((create_git_stash
        { st with store := store_ensure_dir st.store (generate_snapshot_id st.clock) }
        (generate_snapshot_id st.clock) (tid ++ ": " ++ d)).1 = none →
      (create_snapshot st tid d ag files).1.mode = "file_backup") := by
  constructor
  · intro hg'
    have hmode : determine_mode
        { st with store := store_ensure_dir st.store (generate_snapshot_id st.clock) } =
        SnapshotMode.FILE_BACKUP := by
      unfold determine_mode
      simp [hg']
    have hu : untracked_files st = [] := by
      unfold untracked_files
      simp [hg']
    exact (create_snapshot_backup_char st tid d ag files (Or.inl hmode) hu).1
  · intro hnone
    by_cases hg : st.gitRepo = true
    · by_cases hu : untracked_files st = []
      · have hu' : untracked_files
            { st with store := store_ensure_dir st.store (generate_snapshot_id st.clock) } = [] :=
          (untracked_files_congr
            { st with store := store_ensure_dir st.store (generate_snapshot_id st.clock) }
            st rfl rfl rfl).trans hu
        have hmode : determine_mode
            { st with store := store_ensure_dir st.store (generate_snapshot_id st.clock) } =
            SnapshotMode.GIT_STASH := by
          unfold determine_mode
          rw [hu']
          simp [hg]
        have h2 := create_git_stash_none_state
          { st with store := store_ensure_dir st.store (generate_snapshot_id st.clock) }
          (generate_snapshot_id st.clock) (tid ++ ": " ++ d) hnone
        have hst : create_git_stash
            { st with store := store_ensure_dir st.store (generate_snapshot_id st.clock) }
            (generate_snapshot_id st.clock) (tid ++ ": " ++ d) =
            (none,
             { st with store := store_ensure_dir st.store (generate_snapshot_id st.clock) }) :=
          Prod.ext_iff.mpr ⟨hnone, h2⟩
        exact (create_snapshot_backup_char st tid d ag files (Or.inr ⟨hmode, hst⟩) hu).1
      · have hne := files_ne_head_of_untracked st hu
        have hst := create_git_stash_changes
          { st with store := store_ensure_dir st.store (generate_snapshot_id st.clock) }
          (generate_snapshot_id st.clock) (tid ++ ": " ++ d) hg hne
        rw [hst] at hnone
        simp at hnone
    · have hg' : st.gitRepo = false := by
        cases hgb : st.gitRepo
        · rfl
        · exact absurd hgb hg
      have hmode : determine_mode
          { st with store := store_ensure_dir st.store (generate_snapshot_id st.clock) } =
          SnapshotMode.FILE_BACKUP := by
        unfold determine_mode
        simp [hg']
      have hu : untracked_files st = [] := by
        unfold untracked_files
        simp [hg']
      exact (create_snapshot_backup_char st tid d ag files (Or.inl hmode) hu).1

/-- C4: in a repository with uncommitted changes and no untracked
files, `create_snapshot` produces a `git_stash` snapshot with a
non-empty reference and no archive, and the working tree is unchanged
immediately after creation (the stash is pushed, recorded, and popped
back). -/
theorem C4_pop_back_guarantee (st : PState) (tid d ag : String)
    (files : Option (List String)) (h1 : st.gitRepo = true)
    (h2 : untracked_files st = []) (h3 : st.files ≠ st.head) :
    (create_snapshot st tid d ag files).1.mode = "git_stash" ∧
    (∃ ref, (create_snapshot st tid d ag files).1.git_ref = some ref ∧ ref ≠ "") ∧
    (create_snapshot st tid d ag files).1.backup_path = none ∧
    (create_snapshot st tid d ag files).2.files = st.files := by
  have hstash := create_git_stash_changes
    { st with store := store_ensure_dir st.store (generate_snapshot_id st.clock) }
    (generate_snapshot_id st.clock) (tid ++ ": " ++ d) h1 h3
  have hu : untracked_files
      { st with store := store_ensure_dir st.store (generate_snapshot_id st.clock) } = [] :=
    (untracked_files_congr
      { st with store := store_ensure_dir st.store (generate_snapshot_id st.clock) }
      st rfl rfl rfl).trans h2
  have hmode : determine_mode
      { st with store := store_ensure_dir st.store (generate_snapshot_id st.clock) } =
      SnapshotMode.GIT_STASH := by
    unfold determine_mode
    rw [hu]
    simp [h1]
  have hmain : (create_snapshot st tid d ag files).1.mode = "git_stash" ∧
      (create_snapshot st tid d ag files).1.git_ref = some "stash@{0}" ∧
      (create_snapshot st tid d ag files).1.backup_path = none ∧
      (create_snapshot st tid d ag files).2.files = st.files := by
    unfold create_snapshot
    simp only [hmode, hstash]
    simp [SnapshotMode.value, add_to_history]
  exact ⟨hmain.1, ⟨"stash@{0}", hmain.2.1, by decide⟩, hmain.2.2.1, hmain.2.2.2⟩

/-! ### Claim theorems: round trip and the empty snapshot (C1, C10) -/


theorem assocFind_ensure_isSome (s : List (String × StoreEntry)) (id : String) :
    ∃ e, assocFind (store_ensure_dir s id) id = some e := by
  unfold store_ensure_dir
  cases h : assocFind s id with
  | some e =>
    refine ⟨e, ?_⟩
    simp [h]
  | none =>
    refine ⟨StoreEntry.empty, ?_⟩
    simp only [h, Option.isSome_none, Bool.false_eq_true, if_false]
    rw [assocFind_append _ _ _ h]
    simp [assocFind]

theorem assocFind_after_backup_meta (s : List (String × StoreEntry)) (id : String)
    (members : List (String × String)) (snap : Snapshot) (e0 : StoreEntry)
    (he0 : assocFind (store_ensure_dir s id) id = some e0) :
    assocFind (store_set_meta (store_set_backup (store_ensure_dir s id) id members) id snap)
      id = some { metadata := some snap, backupFile := some members,
                  stashRefFile := e0.stashRefFile } := by
  unfold store_set_meta store_set_backup
  rw [assocFind_store_update, assocFind_store_update, he0]
  rfl

theorem assocFind_after_meta (s : List (String × StoreEntry)) (id : String)
    (snap : Snapshot) (e0 : StoreEntry)
    (he0 : assocFind (store_ensure_dir s id) id = some e0) :
    assocFind (store_set_meta (store_ensure_dir s id) id snap) id =
      some { metadata := some snap, backupFile := e0.backupFile,
             stashRefFile := e0.stashRefFile } := by
  unfold store_set_meta
  rw [assocFind_store_update, he0]
  rfl

/-- C10: without version control and with `files=None`, the snapshot
records no files, creates no archive, has `backup_path` absent, and a
subsequent `rollback` of its id (with any file argument) returns
`false`: the snapshot can never be restored. -/
theorem C10_unrestorable_empty_snapshot (st : PState) (tid d ag : String)
    (h1 : st.gitRepo = false)
    (h2 : assocFind st.store (generate_snapshot_id st.clock) = none) :
    (create_snapshot st tid d ag none).1.files_modified = [] ∧
    (create_snapshot st tid d ag none).1.mode = "file_backup" ∧
    (create_snapshot st tid d ag none).1.backup_path = none ∧
    ((assocFind (create_snapshot st tid d ag none).2.store
        (create_snapshot st tid d ag none).1.id).getD StoreEntry.empty).backupFile = none ∧
    ∀ files, (rollback (create_snapshot st tid d ag none).2
        (create_snapshot st tid d ag none).1.id files).1 = false := by
  have hcs := create_snapshot_no_git_none st tid d ag h1
  have hens : store_ensure_dir st.store (generate_snapshot_id st.clock) =
      st.store ++ [(generate_snapshot_id st.clock, StoreEntry.empty)] := by
    unfold store_ensure_dir
    rw [h2]
    rfl
  have he0 : assocFind (store_ensure_dir st.store (generate_snapshot_id st.clock))
      (generate_snapshot_id st.clock) = some StoreEntry.empty := by
    rw [hens, assocFind_append _ _ _ h2]
    simp [assocFind]
  have hfind : assocFind (create_snapshot st tid d ag none).2.store
      (create_snapshot st tid d ag none).1.id =
      some { metadata := some (create_snapshot st tid d ag none).1,
             backupFile := none, stashRefFile := none } := by
    rw [hcs]
    exact assocFind_after_meta st.store (generate_snapshot_id st.clock) _ _ he0
  refine ⟨by rw [hcs], by rw [hcs], by rw [hcs], by rw [hfind]; rfl, ?_⟩
  intro files
  have hget : get_snapshot (create_snapshot st tid d ag none).2
      (create_snapshot st tid d ag none).1.id =
      some (create_snapshot st tid d ag none).1 := by
    unfold get_snapshot
    rw [hfind]
  unfold rollback
  rw [hget]
  rw [hfind]
  have hmode : (create_snapshot st tid d ag none).1.mode = "file_backup" := by rw [hcs]
  have hbp : (create_snapshot st tid d ag none).1.backup_path = none := by rw [hcs]
  have hgr : (create_snapshot st tid d ag none).1.git_ref = none := by rw [hcs]
  simp [hmode, hbp, hgr, SnapshotMode.value]



theorem mem_create_file_backup (st : PState) (F : List String) (f c : String)
    (hc : assocFind st.files f = some c) (hf : f ∈ F) :
    (f, c) ∈ create_file_backup st F := by
  unfold create_file_backup
  exact List.mem_filterMap.mpr ⟨f, hf, by rw [hc]; rfl⟩

theorem create_file_backup_name_det (st : PState) (F : List String) (f c : String)
    (hc : assocFind st.files f = some c) :
    ∀ pc ∈ create_file_backup st F, pc.1 = f → pc.2 = c := by
  intro pc hpc h1
  unfold create_file_backup at hpc
  rcases List.mem_filterMap.mp hpc with ⟨a, haF, heq⟩
  cases ha : assocFind st.files a with
  | none => rw [ha] at heq; simp at heq
  | some c' =>
    rw [ha] at heq
    simp only [Option.map_some', Option.some.injEq] at heq
    subst heq
    simp only at h1
    subst h1
    rw [ha] at hc
    simpa using hc

/-- C1 (amended): in a project without version control, creating a
snapshot of a non-empty set of existing files, mutating the working
tree arbitrarily, and rolling back with no file list restores every
captured file to its captured contents (and the rollback reports
success).  The original unrestricted claim fails under version
control, where a full rollback resets to the last commit. -/
theorem C1_roundtrip_file_backup (st : PState) (tid d ag : String) (F : List String)
    (hgit : st.gitRepo = false) (hne : F ≠ [])
    (hex : ∀ f ∈ F, (assocFind st.files f).isSome = true) (newFiles : FileMap) :
    (rollback { (create_snapshot st tid d ag (some F)).2 with files := newFiles }
        (create_snapshot st tid d ag (some F)).1.id none).1 = true ∧
    ∀ f ∈ F,
      assocFind (rollback { (create_snapshot st tid d ag (some F)).2 with files := newFiles }
        (create_snapshot st tid d ag (some F)).1.id none).2.files f
        = assocFind st.files f := by
  have hcs := create_snapshot_no_git_some st tid d ag F hgit hne
  obtain ⟨e0, he0⟩ := assocFind_ensure_isSome st.store (generate_snapshot_id st.clock)
  have hfind : assocFind (create_snapshot st tid d ag (some F)).2.store
      (create_snapshot st tid d ag (some F)).1.id =
      some { metadata := some (create_snapshot st tid d ag (some F)).1,
             backupFile := some (create_file_backup st F),
             stashRefFile := e0.stashRefFile } := by
    rw [hcs]
    exact assocFind_after_backup_meta st.store (generate_snapshot_id st.clock)
      (create_file_backup st F) _ e0 he0
  have hstore : ({ (create_snapshot st tid d ag (some F)).2 with files := newFiles }
      : PState).store = (create_snapshot st tid d ag (some F)).2.store := rfl
  have hget : get_snapshot
      { (create_snapshot st tid d ag (some F)).2 with files := newFiles }
      (create_snapshot st tid d ag (some F)).1.id =
      some (create_snapshot st tid d ag (some F)).1 := by
    unfold get_snapshot
    rw [hstore, hfind]
  have hmode : (create_snapshot st tid d ag (some F)).1.mode = "file_backup" := by rw [hcs]
  have hbp : (create_snapshot st tid d ag (some F)).1.backup_path =
      some (generate_snapshot_id st.clock ++ "/files.tar.gz") := by rw [hcs]
  have hgr : (create_snapshot st tid d ag (some F)).1.git_ref = none := by rw [hcs]
  have hroll1 : (rollback { (create_snapshot st tid d ag (some F)).2 with files := newFiles }
      (create_snapshot st tid d ag (some F)).1.id none).1 = true := by
    unfold rollback
    simp only [hget, hstore, hfind, hmode, hbp, hgr, SnapshotMode.value]
    simp
  have hrollf : (rollback { (create_snapshot st tid d ag (some F)).2 with files := newFiles }
      (create_snapshot st tid d ag (some F)).1.id none).2.files =
      List.foldl (fun m pc => FileMap.set m pc.1 pc.2) newFiles (create_file_backup st F) := by
    unfold rollback
    simp only [hget, hstore, hfind, hmode, hbp, hgr, SnapshotMode.value]
    simp [add_to_history]
  refine ⟨hroll1, ?_⟩
  intro f hf
  have hsome := hex f hf
  obtain ⟨c, hc⟩ := Option.isSome_iff_exists.mp hsome
  have hmem := mem_create_file_backup st F f c hc hf
  have hall := create_file_backup_name_det st F f c hc
  have hres := foldl_extract_mem (create_file_backup st F) newFiles f c hall (Or.inl hmem)
  rw [hrollf, hres, hc]


/-! ### Claim theorems: rollback semantics (C5, C8) -/


theorem foldl_checkout_not_mem (fs : List String) (st : PState) (p : String)
    (h : p ∉ fs) :
    assocFind (fs.foldl git_checkout_head st).files p = assocFind st.files p := by
  induction fs generalizing st with
  | nil => rfl
  | cons f rest ih =>
    simp only [List.mem_cons, not_or] at h
    simp only [List.foldl_cons]
    rw [ih _ h.2]
    unfold git_checkout_head
    cases hh : assocFind st.head f with
    | none => rfl
    | some c =>
      simp only []
      exact assocFind_set_ne _ _ h.1

theorem not_mem_filter_sel (members : List (String × String)) (fs : List String)
    (p : String) (hp : p ∉ fs) :
    p ∉ (members.filter (fun mem => decide (mem.1 ∈ fs))).map (fun e => e.1) := by
  intro hmem
  rcases List.mem_map.mp hmem with ⟨mem, hmem2, heq⟩
  have hin := (List.mem_filter.mp hmem2).2
  rw [decide_eq_true_eq] at hin
  rw [heq] at hin
  exact hp hin

/-- C5: rolling back with an explicit non-empty file list modifies only
the listed paths: every path outside the list keeps its current
contents, in every mode (git checkout of the named files, or selective
extraction of the archive members named in the list). -/
theorem C5_selective_restore_frame (st : PState) (snapshot_id : String)
    (fs : List String) (hne : fs ≠ []) (p : String) (hp : p ∉ fs) :
    assocFind (rollback st snapshot_id (some fs)).2.files p = assocFind st.files p := by
  have hfse : fs.isEmpty = false := by
    cases fs
    · exact absurd rfl hne
    · rfl
  unfold rollback
  cases hg : get_snapshot st snapshot_id with
  | none => rfl
  | some snap =>
    simp only []
    by_cases hc1 : snap.mode = SnapshotMode.GIT_STASH.value ∧ snap.git_ref.isSome = true
    · rw [if_pos hc1]
      simp only [hfse]
      simp [add_to_history, foldl_checkout_not_mem fs st p hp]
    · rw [if_neg hc1]
      by_cases hc2 : snap.backup_path.isSome = true ∨
          ((assocFind st.store snapshot_id).getD StoreEntry.empty).backupFile.isSome = true
      · rw [if_pos hc2]
        cases hbf : ((assocFind st.store snapshot_id).getD StoreEntry.empty).backupFile with
        | none => simp
        | some members =>
          simp only [hbf, hfse]
          simp [add_to_history,
            foldl_extract_not_mem _ _ _ (not_mem_filter_sel members fs p hp)]
      · rw [if_neg hc2]
        simp

/-- C8: `rollback` returns `true` only when at least one restore step
ran (the snapshot exists and either the git branch applied or a backup
archive was present); when no snapshot with the id exists it returns
`false` and leaves the history log untouched. -/
theorem C8_rollback_result_semantics (st : PState) (snapshot_id : String)
    (files : Option (List String)) :
    (get_snapshot st snapshot_id = none →
      (rollback st snapshot_id files).1 = false ∧
      (rollback st snapshot_id files).2.history = st.history) ∧
    ((rollback st snapshot_id files).1 = true →
      ∃ snap, get_snapshot st snapshot_id = some snap ∧
        ((snap.mode = "git_stash" ∧ snap.git_ref.isSome = true) ∨
         ((assocFind st.store snapshot_id).getD StoreEntry.empty).backupFile.isSome = true)) := by
  constructor
  · intro hnone
    unfold rollback
    rw [hnone]
    exact ⟨rfl, rfl⟩
  · intro htrue
    unfold rollback at htrue
    cases hg : get_snapshot st snapshot_id with
    | none => rw [hg] at htrue; simp at htrue
    | some snap =>
      rw [hg] at htrue
      simp only [] at htrue
      refine ⟨snap, rfl, ?_⟩
      by_cases hc1 : snap.mode = SnapshotMode.GIT_STASH.value ∧ snap.git_ref.isSome = true
      · exact Or.inl hc1
      · rw [if_neg hc1] at htrue
        by_cases hc2 : snap.backup_path.isSome = true ∨
            ((assocFind st.store snapshot_id).getD StoreEntry.empty).backupFile.isSome = true
        · rw [if_pos hc2] at htrue
          cases hbf : ((assocFind st.store snapshot_id).getD StoreEntry.empty).backupFile with
          | none => rw [hbf] at htrue; simp at htrue
          | some members => simp [hbf]
        · rw [if_neg hc2] at htrue
          simp at htrue


/-! ### Claim theorems: listing and retention (C7, C6) -/


/-- C7: `list_snapshots` returns exactly the store entries whose
metadata parses (a permutation of them), sorted by `created_at`
descending, and an empty store yields the empty list (the model is
total, so nothing is raised); corrupt entries are skipped by
construction of the filter. -/
theorem C7_listing_resilience_order (st : PState) :
    (list_snapshots st).Perm (st.store.filterMap (fun e => e.2.metadata)) ∧
    (list_snapshots st).Pairwise (fun a b => b.created_at ≤ a.created_at) ∧
    (st.store = [] → list_snapshots st = []) := by
  refine ⟨List.mergeSort_perm _ _, ?_, ?_⟩
  · have htrans : ∀ a b c : Snapshot, snapshotLe a b = true → snapshotLe b c = true →
        snapshotLe a c = true := by
      intro a b c h1 h2
      simp only [snapshotLe, decide_eq_true_eq] at h1 h2 ⊢
      exact le_trans h2 h1
    have htot : ∀ a b : Snapshot, (snapshotLe a b || snapshotLe b a) = true := by
      intro a b
      simp only [snapshotLe, Bool.or_eq_true, decide_eq_true_eq]
      exact le_total b.created_at a.created_at
    have hs := List.sorted_mergeSort htrans htot
      (st.store.filterMap (fun e => e.2.metadata))
    exact hs.imp (fun h => by simpa [snapshotLe] using h)
  · intro h
    unfold list_snapshots
    rw [h]
    simp

theorem store_remove_eq_filter (s : List (String × StoreEntry)) (id : String) :
    store_remove s id = s.filter (fun e => decide (e.1 ≠ id)) := by
  induction s with
  | nil => rfl
  | cons e rest ih =>
    obtain ⟨a, b⟩ := e
    by_cases he : a = id
    · simp [store_remove, he, ih]
    · simp [store_remove, he, ih]

/-- The deletion loop of `cleanup_old_snapshots`: when the targeted ids
are distinct and all present, every deletion succeeds and exactly the
targeted directories disappear. -/
theorem cleanup_fold (ds : List Snapshot) (st : PState) (n : Nat)
    (hnd : (ds.map Snapshot.id).Nodup)
    (hin : ∀ s ∈ ds, (assocFind st.store s.id).isSome = true) :
    (ds.foldl (fun acc snap =>
        let r := delete_snapshot acc.2 snap.id
        (if r.1 then acc.1 + 1 else acc.1, r.2)) (n, st)).1 = n + ds.length ∧
    (ds.foldl (fun acc snap =>
        let r := delete_snapshot acc.2 snap.id
        (if r.1 then acc.1 + 1 else acc.1, r.2)) (n, st)).2.store =
      st.store.filter (fun e => decide (e.1 ∉ ds.map Snapshot.id)) := by
  induction ds generalizing st n with
  | nil =>
    refine ⟨rfl, ?_⟩
    simp [List.filter_eq_self]
  | cons d rest ih =>
    simp only [List.map_cons, List.nodup_cons] at hnd
    have hd := hin d (List.mem_cons_self _ _)
    have hdel : delete_snapshot st d.id =
        (true, add_to_history { st with store := store_remove st.store d.id }
          "delete" d.id []) := by
      unfold delete_snapshot
      rw [if_pos hd]
    have hstD : (add_to_history { st with store := store_remove st.store d.id }
        "delete" d.id []).store = store_remove st.store d.id := rfl
    have hin' : ∀ s ∈ rest,
        (assocFind (add_to_history { st with store := store_remove st.store d.id }
          "delete" d.id []).store s.id).isSome = true := by
      intro s hs
      rw [hstD]
      have hne : s.id ≠ d.id := by
        intro heq
        exact hnd.1 (heq ▸ List.mem_map_of_mem Snapshot.id hs)
      rw [assocFind_store_remove_ne _ _ _ hne]
      exact hin s (List.mem_cons_of_mem _ hs)
    have hih := ih (add_to_history { st with store := store_remove st.store d.id }
      "delete" d.id []) (n + 1) hnd.2 hin'
    have hacc : (let r := delete_snapshot (n, st).2 d.id
        (if r.1 then (n, st).1 + 1 else (n, st).1, r.2)) =
        ((n + 1 : Nat), add_to_history { st with store := store_remove st.store d.id }
          "delete" d.id []) := by
      simp only [hdel]
      simp
    rw [List.foldl_cons, hacc]
    constructor
    · rw [hih.1]
      simp only [List.length_cons]
      omega
    · rw [hih.2, hstD, store_remove_eq_filter, List.filter_filter]
      apply List.filter_congr
      intro e he
      by_cases h1 : e.1 = d.id <;> by_cases h2 : e.1 ∈ rest.map Snapshot.id <;>
        simp [h1, h2]




theorem filterMap_meta_map_id (store : List (String × StoreEntry))
    (hwf2 : ∀ e ∈ store, ∀ m, e.2.metadata = some m → m.id = e.1) :
    (store.filterMap (fun e => e.2.metadata)).map Snapshot.id =
      (store.filter (fun e => e.2.metadata.isSome)).map (fun e => e.1) := by
  induction store with
  | nil => rfl
  | cons e rest ih =>
    have hrest : ∀ e' ∈ rest, ∀ m, e'.2.metadata = some m → m.id = e'.1 :=
      fun e' he' => hwf2 e' (List.mem_cons_of_mem _ he')
    cases hm : e.2.metadata with
    | none => simp [List.filterMap_cons, hm, List.filter_cons, ih hrest]
    | some m =>
      have hid := hwf2 e (List.mem_cons_self _ _) m hm
      simp [List.filterMap_cons, hm, List.filter_cons, ih hrest, hid]

theorem snaps_ids_nodup (st : PState) (hwf : StoreWF st) :
    ((list_snapshots st).map Snapshot.id).Nodup := by
  have hperm : ((list_snapshots st).map Snapshot.id).Perm
      ((st.store.filterMap (fun e => e.2.metadata)).map Snapshot.id) :=
    (List.mergeSort_perm _ _).map _
  rw [filterMap_meta_map_id st.store hwf.2] at hperm
  have hsub : List.Sublist
      ((st.store.filter (fun e => e.2.metadata.isSome)).map (fun e => e.1))
      (st.store.map (fun e => e.1)) :=
    (List.filter_sublist _).map _
  exact hperm.symm.nodup (hwf.1.sublist hsub)

theorem snaps_mem_isSome (st : PState) (hwf : StoreWF st) (s : Snapshot)
    (hs : s ∈ list_snapshots st) : (assocFind st.store s.id).isSome = true := by
  have hmem : s ∈ st.store.filterMap (fun e => e.2.metadata) :=
    (List.mergeSort_perm _ _).subset hs
  rcases List.mem_filterMap.mp hmem with ⟨e, he, hm⟩
  rw [hwf.2 e he s hm]
  exact assocFind_isSome_of_mem _ _ (List.mem_map_of_mem _ he)

theorem filterMap_meta_filter_ids (store : List (String × StoreEntry))
    (ids : List String)
    (hwf2 : ∀ e ∈ store, ∀ m, e.2.metadata = some m → m.id = e.1) :
    ((store.filter (fun e => decide (e.1 ∉ ids))).filterMap (fun e => e.2.metadata)) =
      (store.filterMap (fun e => e.2.metadata)).filter (fun m => decide (m.id ∉ ids)) := by
  induction store with
  | nil => rfl
  | cons e rest ih =>
    have hrest : ∀ e' ∈ rest, ∀ m, e'.2.metadata = some m → m.id = e'.1 :=
      fun e' he' => hwf2 e' (List.mem_cons_of_mem _ he')
    have ih' := ih hrest
    simp only [decide_not] at ih'
    cases hm : e.2.metadata with
    | none =>
      by_cases hp : e.1 ∈ ids <;>
        simp [List.filter_cons, hp, List.filterMap_cons, hm, ih', decide_not]
    | some m =>
      have hid := hwf2 e (List.mem_cons_self _ _) m hm
      by_cases hp : e.1 ∈ ids <;>
        simp [List.filter_cons, hp, List.filterMap_cons, hm, ih', hid, decide_not]

/-- C6: under a well-formed store, `cleanup_old_snapshots keep_count`
deletes exactly the listed snapshots beyond position `keep_count` in
newest-first order, returns the number deleted, and an immediately
repeated call deletes zero. -/
theorem C6_cleanup_semantics (st : PState) (keep_count : Nat) (hwf : StoreWF st) :
    (cleanup_old_snapshots st keep_count).1 =
      ((list_snapshots st).drop keep_count).length ∧
    (cleanup_old_snapshots st keep_count).2.store =
      st.store.filter (fun e =>
        decide (e.1 ∉ ((list_snapshots st).drop keep_count).map Snapshot.id)) ∧
    (cleanup_old_snapshots (cleanup_old_snapshots st keep_count).2 keep_count).1 = 0 := by
  by_cases hle : (list_snapshots st).length ≤ keep_count
  · have h0 : cleanup_old_snapshots st keep_count = (0, st) := by
      unfold cleanup_old_snapshots
      rw [if_pos hle]
    have hdrop : (list_snapshots st).drop keep_count = [] :=
      List.drop_eq_nil_of_le hle
    refine ⟨?_, ?_, ?_⟩
    · rw [h0, hdrop]
      rfl
    · rw [h0, hdrop]
      simp [List.filter_eq_self]
    · rw [h0]
      unfold cleanup_old_snapshots
      rw [if_pos hle]
  · have hnd : (((list_snapshots st).drop keep_count).map Snapshot.id).Nodup := by
      have := snaps_ids_nodup st hwf
      have hsub : List.Sublist
          (((list_snapshots st).drop keep_count).map Snapshot.id)
          ((list_snapshots st).map Snapshot.id) :=
        (List.drop_sublist _ _).map _
      exact this.sublist hsub
    have hin : ∀ s ∈ (list_snapshots st).drop keep_count,
        (assocFind st.store s.id).isSome = true := by
      intro s hs
      exact snaps_mem_isSome st hwf s (List.drop_subset _ _ hs)
    have hfold := cleanup_fold ((list_snapshots st).drop keep_count) st 0 hnd hin
    have hmain : cleanup_old_snapshots st keep_count =
        (((list_snapshots st).drop keep_count).foldl (fun acc snap =>
          let r := delete_snapshot acc.2 snap.id
          (if r.1 then acc.1 + 1 else acc.1, r.2)) (0, st)) := by
      unfold cleanup_old_snapshots
      rw [if_neg hle]
    refine ⟨?_, ?_, ?_⟩
    · rw [hmain, hfold.1]
      omega
    · rw [hmain, hfold.2]
    · have hstore1 : (cleanup_old_snapshots st keep_count).2.store =
          st.store.filter (fun e =>
            decide (e.1 ∉ ((list_snapshots st).drop keep_count).map Snapshot.id)) := by
        rw [hmain, hfold.2]
      have hlen1 : (list_snapshots (cleanup_old_snapshots st keep_count).2).length =
          keep_count := by
        unfold list_snapshots
        rw [List.length_mergeSort, hstore1,
          filterMap_meta_filter_ids st.store _ hwf.2]
        have hperm : ((st.store.filterMap (fun e => e.2.metadata)).filter
            (fun m => decide (m.id ∉ ((list_snapshots st).drop keep_count).map Snapshot.id))).Perm
            ((list_snapshots st).filter
              (fun m => decide (m.id ∉ ((list_snapshots st).drop keep_count).map Snapshot.id))) :=
          (List.mergeSort_perm (st.store.filterMap (fun e => e.2.metadata)) snapshotLe).symm.filter _
        rw [hperm.length_eq]
        have hsplit := List.take_append_drop keep_count (list_snapshots st)
        have hnodup := snaps_ids_nodup st hwf
        have hdropnil : ((list_snapshots st).drop keep_count).filter
            (fun m => decide (m.id ∉ ((list_snapshots st).drop keep_count).map Snapshot.id)) = [] := by
          apply List.filter_eq_nil_iff.mpr
          intro a ha
          simp only [decide_eq_true_eq, Decidable.not_not]
          exact List.mem_map_of_mem _ ha
        have htakeall : ((list_snapshots st).take keep_count).filter
            (fun m => decide (m.id ∉ ((list_snapshots st).drop keep_count).map Snapshot.id)) =
            (list_snapshots st).take keep_count := by
          apply List.filter_eq_self.mpr
          intro a ha
          simp only [decide_eq_true_eq]
          intro hcontra
          have hmap : ((list_snapshots st).map Snapshot.id) =
              ((list_snapshots st).take keep_count).map Snapshot.id ++
              ((list_snapshots st).drop keep_count).map Snapshot.id := by
            rw [← List.map_append, hsplit]
          rw [hmap] at hnodup
          have hdisj := (List.nodup_append.mp hnodup).2.2
          exact hdisj (List.mem_map_of_mem _ ha) hcontra
        have hfilter : (list_snapshots st).filter
            (fun m => decide (m.id ∉ ((list_snapshots st).drop keep_count).map Snapshot.id)) =
            (list_snapshots st).take keep_count := by
          generalize hids : ((list_snapshots st).drop keep_count).map Snapshot.id = ids
            at hdropnil htakeall
          conv_lhs => rw [← hsplit]
          rw [List.filter_append, hdropnil, htakeall, List.append_nil]
        rw [hfilter, List.length_take]
        omega
      have hgen : ∀ s' : PState, (list_snapshots s').length ≤ keep_count →
          (cleanup_old_snapshots s' keep_count).1 = 0 := by
        intro s' h
        unfold cleanup_old_snapshots
        rw [if_pos h]
      exact hgen _ (le_of_eq hlen1)


/-! ### Claim theorems: snapshot ids (C9) -/


theorem digitChar_inj_lt10 :
    ∀ a < 10, ∀ b < 10, Nat.digitChar a = Nat.digitChar b → a = b := by
  decide

theorem strftime_compact_inj (t1 t2 : DateTime) (h1 : t1.Valid) (h2 : t2.Valid)
    (h : strftime_compact t1 = strftime_compact t2) : t1 = t2 := by
  obtain ⟨y1, mo1, d1, hh1, mi1, s1⟩ := t1
  obtain ⟨y2, mo2, d2, hh2, mi2, s2⟩ := t2
  have hy1 : y1 < 10000 := h1.1
  have hmo1 : mo1 < 100 := h1.2.1
  have hd1 : d1 < 100 := h1.2.2.1
  have hhh1 : hh1 < 100 := h1.2.2.2.1
  have hmi1 : mi1 < 100 := h1.2.2.2.2.1
  have hs1 : s1 < 100 := h1.2.2.2.2.2
  have hy2 : y2 < 10000 := h2.1
  have hmo2 : mo2 < 100 := h2.2.1
  have hd2 : d2 < 100 := h2.2.2.1
  have hhh2 : hh2 < 100 := h2.2.2.2.1
  have hmi2 : mi2 < 100 := h2.2.2.2.2.1
  have hs2 : s2 < 100 := h2.2.2.2.2.2
  have hd : (strftime_compact ⟨y1, mo1, d1, hh1, mi1, s1⟩).data =
      (strftime_compact ⟨y2, mo2, d2, hh2, mi2, s2⟩).data := by rw [h]
  unfold strftime_compact at hd
  simp only [String.data_append, digits2, digits4] at hd
  have hund : ("_" : String).data = ['_'] := rfl
  simp only [hund, List.cons_append, List.nil_append, List.cons.injEq, and_true] at hd
  obtain ⟨e1, e2, e3, e4, e5, e6, e7, e8, _, e9, e10, e11, e12, e13, e14⟩ := hd
  have g1 : y1 / 1000 % 10 = y2 / 1000 % 10 :=
    digitChar_inj_lt10 _ (by omega) _ (by omega) e1
  have g2 : y1 / 100 % 10 = y2 / 100 % 10 :=
    digitChar_inj_lt10 _ (by omega) _ (by omega) e2
  have g3 : y1 / 10 % 10 = y2 / 10 % 10 :=
    digitChar_inj_lt10 _ (by omega) _ (by omega) e3
  have g4 : y1 % 10 = y2 % 10 :=
    digitChar_inj_lt10 _ (by omega) _ (by omega) e4
  have g5 : mo1 / 10 % 10 = mo2 / 10 % 10 :=
    digitChar_inj_lt10 _ (by omega) _ (by omega) e5
  have g6 : mo1 % 10 = mo2 % 10 :=
    digitChar_inj_lt10 _ (by omega) _ (by omega) e6
  have g7 : d1 / 10 % 10 = d2 / 10 % 10 :=
    digitChar_inj_lt10 _ (by omega) _ (by omega) e7
  have g8 : d1 % 10 = d2 % 10 :=
    digitChar_inj_lt10 _ (by omega) _ (by omega) e8
  have g9 : hh1 / 10 % 10 = hh2 / 10 % 10 :=
    digitChar_inj_lt10 _ (by omega) _ (by omega) e9
  have g10 : hh1 % 10 = hh2 % 10 :=
    digitChar_inj_lt10 _ (by omega) _ (by omega) e10
  have g11 : mi1 / 10 % 10 = mi2 / 10 % 10 :=
    digitChar_inj_lt10 _ (by omega) _ (by omega) e11
  have g12 : mi1 % 10 = mi2 % 10 :=
    digitChar_inj_lt10 _ (by omega) _ (by omega) e12
  have g13 : s1 / 10 % 10 = s2 / 10 % 10 :=
    digitChar_inj_lt10 _ (by omega) _ (by omega) e13
  have g14 : s1 % 10 = s2 % 10 :=
    digitChar_inj_lt10 _ (by omega) _ (by omega) e14
  simp only [DateTime.mk.injEq]
  refine ⟨?_, ?_, ?_, ?_, ?_, ?_⟩ <;> omega

/-- C9 (amended): every generated id is `snap_` followed by the UTC
clock rendered at second resolution; ids generated at *distinct*
second-resolution timestamps are distinct.  (As originally stated the
claim is false: two calls within the same second collide.) -/
theorem C9_id_format_and_uniqueness (st : PState) (tid d ag : String)
    (files : Option (List String)) :
    (create_snapshot st tid d ag files).1.id = "snap_" ++ strftime_compact st.clock ∧
    ∀ t1 t2 : DateTime, t1.Valid → t2.Valid → t1 ≠ t2 →
      generate_snapshot_id t1 ≠ generate_snapshot_id t2 := by
  constructor
  · unfold create_snapshot generate_snapshot_id
    rfl
  · intro t1 t2 h1 h2 hne heq
    apply hne
    apply strftime_compact_inj t1 t2 h1 h2
    unfold generate_snapshot_id at heq
    have hdata := congrArg String.data heq
    simp only [String.data_append] at hdata
    have hcancel := List.append_cancel_left hdata
    exact String.ext hcancel


/-! ### Counterexamples and concrete witnesses -/


/-- C1's counterexample: under version control (last commit `"v0"`,
uncommitted working contents `"v1"`), a snapshot followed by a mutation
to `"v2"` and a full rollback yields `"v0"` — the last commit — not the
captured `"v1"`: the unrestricted round-trip claim is false. -/
theorem C1_counterexample :
    FileMap.get demoGit.files "a.txt" = some "v1" ∧
    (rollback { (create_snapshot demoGit "t2" "demo" "aider" (some ["a.txt"])).2 with
        files := [("a.txt", "v2")] }
      (create_snapshot demoGit "t2" "demo" "aider" (some ["a.txt"])).1.id none).1 = true ∧
    FileMap.get (rollback
      { (create_snapshot demoGit "t2" "demo" "aider" (some ["a.txt"])).2 with
        files := [("a.txt", "v2")] }
      (create_snapshot demoGit "t2" "demo" "aider" (some ["a.txt"])).1.id none).2.files
      "a.txt" = some "v0" := by
  decide

/-- C1 witness (Scenario A): no version control, `a.txt` = `"v1"`,
snapshot, overwrite with `"v2"`, full rollback restores `"v1"`. -/
theorem C1_roundtrip_file_backup_witness :
    (rollback { (create_snapshot demoNoGit "t1" "demo task" "aider" (some ["a.txt"])).2 with
        files := [("a.txt", "v2")] }
      (create_snapshot demoNoGit "t1" "demo task" "aider" (some ["a.txt"])).1.id none).1
      = true ∧
    assocFind (rollback
      { (create_snapshot demoNoGit "t1" "demo task" "aider" (some ["a.txt"])).2 with
        files := [("a.txt", "v2")] }
      (create_snapshot demoNoGit "t1" "demo task" "aider" (some ["a.txt"])).1.id none).2.files
      "a.txt" = assocFind demoNoGit.files "a.txt" := by
  have h := C1_roundtrip_file_backup demoNoGit "t1" "demo task" "aider" ["a.txt"]
    rfl (by decide) (by decide) [("a.txt", "v2")]
  exact ⟨h.1, h.2 "a.txt" (by decide)⟩

/-- C2's counterexample: without version control and with no file list,
`create_snapshot` yields `mode = "file_backup"` with `backup_path`
absent, falsifying the claim that `file_backup` snapshots always carry
a `backup_path`. -/
theorem C2_counterexample :
    (create_snapshot demoNoGit "t" "d" "a" none).1.mode = "file_backup" ∧
    (create_snapshot demoNoGit "t" "d" "a" none).1.backup_path = none := by
  decide

/-- C3 witness: a project without version control, once with no file
list (first conjunct, missing-vcs guarantee) and once with an explicit
list after a failed stash capture (second conjunct, fallback). -/
theorem C3_fallback_guarantee_witness :
    (create_snapshot demoNoGit "t" "d" "ag" none).1.mode = "file_backup" ∧
    (create_snapshot demoNoGit "t" "d" "ag" (some ["a.txt"])).1.mode = "file_backup" := by
  refine ⟨(C3_fallback_guarantee demoNoGit "t" "d" "ag" none).1 rfl, ?_⟩
  exact (C3_fallback_guarantee demoNoGit "t" "d" "ag" (some ["a.txt"])).2 (by decide)

/-- C4 witness (Scenario B): a repository whose working tree differs
from its last commit and has no untracked files. -/
theorem C4_pop_back_guarantee_witness :
    (create_snapshot demoGit "t" "d" "ag" none).1.mode = "git_stash" ∧
    (∃ ref, (create_snapshot demoGit "t" "d" "ag" none).1.git_ref = some ref ∧ ref ≠ "") ∧
    (create_snapshot demoGit "t" "d" "ag" none).1.backup_path = none ∧
    (create_snapshot demoGit "t" "d" "ag" none).2.files = demoGit.files :=
  C4_pop_back_guarantee demoGit "t" "d" "ag" none rfl (by decide) (by decide)

/-- C5 witness: selectively rolling back `a.txt` leaves `b.txt` at its
post-task contents. -/
theorem C5_selective_restore_frame_witness :
    assocFind (rollback
      { (create_snapshot demoTwoFiles "t" "d" "ag" (some ["a.txt", "b.txt"])).2 with
        files := [("a.txt", "a2"), ("b.txt", "b2")] }
      (create_snapshot demoTwoFiles "t" "d" "ag" (some ["a.txt", "b.txt"])).1.id
      (some ["a.txt"])).2.files "b.txt" =
    assocFind ({ (create_snapshot demoTwoFiles "t" "d" "ag" (some ["a.txt", "b.txt"])).2 with
        files := [("a.txt", "a2"), ("b.txt", "b2")] } : PState).files "b.txt" :=
  C5_selective_restore_frame
    { (create_snapshot demoTwoFiles "t" "d" "ag" (some ["a.txt", "b.txt"])).2 with
      files := [("a.txt", "a2"), ("b.txt", "b2")] }
    (create_snapshot demoTwoFiles "t" "d" "ag" (some ["a.txt", "b.txt"])).1.id
    ["a.txt"] (by decide) "b.txt" (by decide)

/-- C6 witness (Scenario D): with five stored snapshots, `cleanup(2)`
deletes exactly the three oldest and a repeated call deletes zero. -/
theorem C6_cleanup_semantics_witness :
    (cleanup_old_snapshots demoStore5 2).1 = 3 ∧
    (cleanup_old_snapshots (cleanup_old_snapshots demoStore5 2).2 2).1 = 0 := by
  have hwf : StoreWF demoStore5 := by
    constructor
    · decide
    · intro e he m hm
      simp only [demoStore5, List.mem_cons, List.not_mem_nil, or_false] at he
      rcases he with h | h | h | h | h <;>
        (subst h; simp only [demoEntry, demoSnapMeta, Option.some.injEq] at hm;
         subst hm; rfl)
  have h := C6_cleanup_semantics demoStore5 2 hwf
  have hlen : (list_snapshots demoStore5).length = 5 := by
    unfold list_snapshots
    rw [List.length_mergeSort]
    decide
  refine ⟨?_, h.2.2⟩
  rw [h.1, List.length_drop, hlen]

/-- C7 witness (Scenario C): listing an empty store yields the empty
sequence. -/
theorem C7_listing_resilience_order_witness :
    list_snapshots demoEmptyStore = [] :=
  (C7_listing_resilience_order demoEmptyStore).2.2 rfl

/-- C8 witness: a successful file-backup rollback exposes the restore
step that ran, and a rollback of a missing id returns `false` without
touching the history log. -/
theorem C8_rollback_result_semantics_witness :
    (∃ snap, get_snapshot (create_snapshot demoNoGit "t1" "x" "ag" (some ["a.txt"])).2
        (create_snapshot demoNoGit "t1" "x" "ag" (some ["a.txt"])).1.id = some snap ∧
      ((snap.mode = "git_stash" ∧ snap.git_ref.isSome = true) ∨
       ((assocFind (create_snapshot demoNoGit "t1" "x" "ag" (some ["a.txt"])).2.store
          (create_snapshot demoNoGit "t1" "x" "ag" (some ["a.txt"])).1.id).getD
          StoreEntry.empty).backupFile.isSome = true)) ∧
    ((rollback demoEmptyStore "missing" none).1 = false ∧
     (rollback demoEmptyStore "missing" none).2.history = demoEmptyStore.history) := by
  constructor
  · exact (C8_rollback_result_semantics
      (create_snapshot demoNoGit "t1" "x" "ag" (some ["a.txt"])).2
      (create_snapshot demoNoGit "t1" "x" "ag" (some ["a.txt"])).1.id none).2 (by decide)
  · exact (C8_rollback_result_semantics demoEmptyStore "missing" none).1 (by decide)

/-- C9's counterexample: two `create_snapshot` calls within the same
second generate the same id, so ids are not pairwise distinct across a
sequence of calls. -/
theorem C9_counterexample :
    (create_snapshot demoNoGit "t" "d" "a" (some ["a.txt"])).1.id =
      (create_snapshot (create_snapshot demoNoGit "t" "d" "a" (some ["a.txt"])).2
        "t2" "d2" "a2" (some ["a.txt"])).1.id ∧
    (create_snapshot demoNoGit "t" "d" "a" (some ["a.txt"])).1.id =
      "snap_20250101_120000" := by
  decide

/-- C9 witness: the generated id has the `snap_<timestamp>` shape, and
two valid timestamps one second apart give distinct ids. -/
theorem C9_id_format_and_uniqueness_witness :
    (create_snapshot demoNoGit "t" "d" "ag" none).1.id =
      "snap_" ++ strftime_compact demoNoGit.clock ∧
    generate_snapshot_id ⟨2025, 1, 1, 12, 0, 0⟩ ≠
      generate_snapshot_id ⟨2025, 1, 1, 12, 0, 1⟩ := by
  have h := C9_id_format_and_uniqueness demoNoGit "t" "d" "ag" none
  refine ⟨h.1, ?_⟩
  exact h.2 ⟨2025, 1, 1, 12, 0, 0⟩ ⟨2025, 1, 1, 12, 0, 1⟩
    (by unfold DateTime.Valid; decide) (by unfold DateTime.Valid; decide) (by decide)

/-- C10 witness: the empty no-vcs snapshot records nothing and cannot
be rolled back. -/
theorem C10_unrestorable_empty_snapshot_witness :
    (create_snapshot demoNoGit "t" "d" "ag" none).1.files_modified = [] ∧
    (create_snapshot demoNoGit "t" "d" "ag" none).1.mode = "file_backup" ∧
    (create_snapshot demoNoGit "t" "d" "ag" none).1.backup_path = none ∧
    ((assocFind (create_snapshot demoNoGit "t" "d" "ag" none).2.store
        (create_snapshot demoNoGit "t" "d" "ag" none).1.id).getD
        StoreEntry.empty).backupFile = none ∧
    (rollback (create_snapshot demoNoGit "t" "d" "ag" none).2
      (create_snapshot demoNoGit "t" "d" "ag" none).1.id none).1 = false := by
  have h := C10_unrestorable_empty_snapshot demoNoGit "t" "d" "ag" rfl (by decide)
  exact ⟨h.1, h.2.1, h.2.2.1, h.2.2.2.1, h.2.2.2.2 none⟩


end RollbackSpec
